import Mathlib

/-!
Verification development for a set of command-line utilities that fetch
social-media post data, render structured article content to Markdown, and
translate Markdown documents line by line while preserving structure.

The Python sources are shallowly embedded below:
- `renderArticleBlocksMd` embeds `_render_article_blocks_md`
  (x-twitter-fetch/scripts/fetch_tweet.py);
- `translateStep` / `flushTextBuffer` / `runPipeline` / `translateDoc` embed
  the line loop of `main` (x-twitter-fetch/scripts/openai_translate.py);
- `followQuote` embeds the quote-substitution block of `main`
  (x-twitter-fetch/scripts/fetch_tweet.py);
- `bestText` embeds the best-text selection of `main` (same file);
- `extractTweetId` embeds `_extract_tweet_id`
  (twitter-viewer/scripts/fetch_tweet.py);
- `parseFromText` embeds `parse_from_text` and its regex `STATUS_RE`
  (x-twitter-fetch/scripts/fetch_tweet.py);
- `tvFetch` embeds the error branch of `_fetch`
  (twitter-viewer/scripts/fetch_tweet.py).

Python string primitives (`str.strip`, `str.rstrip`, `str.split`,
`str.replace`, `str.find`, `re` patterns used by the scripts) are modelled by
executable functions on `List Char`.
-/

/-! ### Python string primitives on character lists -/

/-- Python `str.strip()` with no argument strips whitespace from both ends:
first the trailing run, then the leading run (the order is immaterial). -/
def rstripList (l : List Char) : List Char :=
  (l.reverse.dropWhile Char.isWhitespace).reverse

def stripList (l : List Char) : List Char :=
  (rstripList l).dropWhile Char.isWhitespace

/-- Python `str.strip()` on a `String`. -/
def pyStrip (s : String) : String := String.mk (stripList s.data)

/-- Python `str.rstrip()` on a `String`. -/
def pyRstrip (s : String) : String := String.mk (rstripList s.data)

/-- Python `str.strip("\n")`: strips only newline characters from both ends. -/
def stripNLList (l : List Char) : List Char :=
  ((l.dropWhile (· == '\n')).reverse.dropWhile (· == '\n')).reverse

def pyStripNL (s : String) : String := String.mk (stripNLList s.data)

/-- Python `p in s` style prefix test: `s.startswith(p)`. -/
def pyStartsWith (p s : String) : Bool := p.data.isPrefixOf s.data

/-- Python `s.split(sep)` for a one-character separator (always at least one
piece; adjacent separators give empty pieces). -/
def splitOnChar (c : Char) : List Char → List (List Char)
  | [] => [[]]
  | x :: xs =>
    let r := splitOnChar c xs
    if x == c then [] :: r
    else
      match r with
      | [] => [[x]]
      | h :: t => (x :: h) :: t

/-- Python `s.split("\n")` on a `String`. -/
def pySplitNL (s : String) : List String :=
  (splitOnChar '\n' s.data).map String.mk

/-- Python `s.replace("\r\n", "\n")`: replace all non-overlapping occurrences,
scanning left to right. -/
def replaceCRLF : List Char → List Char
  | '\r' :: '\n' :: rest => '\n' :: replaceCRLF rest
  | c :: rest => c :: replaceCRLF rest
  | [] => []

/-- Python `s.replace("\r", "\n")`. -/
def replaceCR (l : List Char) : List Char :=
  l.map fun c => if c == '\r' then '\n' else c

/-- `text.replace("\r\n", "\n").replace("\r", "\n")` on a `String`. -/
def normalizeNewlines (s : String) : String :=
  String.mk (replaceCR (replaceCRLF s.data))

/-- Index of the first occurrence of `pat` in `s` (Python `s.find(pat)`,
restricted to inputs where the pattern occurs; `none` when absent). -/
def firstOccur (pat : List Char) : List Char → Option Nat
  | [] => if pat.isEmpty then some 0 else none
  | c :: cs =>
    if pat.isPrefixOf (c :: cs) then some 0
    else (firstOccur pat cs).map (· + 1)

/-- Python `line.split(" ", 1)`: the part before the first space, and the
remainder after it when a space exists. -/
def splitFirstSpace : List Char → List Char × Option (List Char)
  | [] => ([], none)
  | c :: cs =>
    if c == ' ' then ([], some cs)
    else
      let (a, r) := splitFirstSpace cs
      (c :: a, r)

/-! ### Translation pipeline (openai_translate.py, `main`)

State of the single left-to-right pass: emitted output lines, the paragraph
buffer, and the code-fence flag.  The `calls` field is a ghost log recording,
in order, every chunk passed to `translate_chunk`; it changes no behaviour and
exists so that theorems can speak about what reaches the translator. -/

structure PState where
  out : List String
  buf : List String
  calls : List String
  inCode : Bool
  deriving Repr, DecidableEq

def PState.init : PState := ⟨[], [], [], false⟩

/-- `flush_text_buffer`: join the buffer with newlines, strip surrounding
newline characters, discard when empty, otherwise translate the chunk once and
splice the translated lines into the output. -/
def flushTextBuffer (tr : String → String) (s : PState) : PState :=
  match s.buf with
  | [] => s
  | _ :: _ =>
    let chunk := pyStripNL (String.intercalate "\n" s.buf)
    if chunk == "" then { s with buf := [] }
    else
      { s with
        out := s.out ++ pySplitNL (tr chunk)
        calls := s.calls ++ [chunk]
        buf := [] }

/-- The regex `^(\s*)(\d+\.\s+)(.*)$` used for ordered list lines: leading
whitespace, a nonempty digit run, a dot, nonempty whitespace, and the rest. -/
def matchOrdered (l : List Char) : Option (List Char × List Char × List Char) :=
  let ws := l.takeWhile (·.isWhitespace)
  let r1 := l.dropWhile (·.isWhitespace)
  let ds := r1.takeWhile (·.isDigit)
  if ds.isEmpty then none
  else
    match r1.drop ds.length with
    | '.' :: r2 =>
      let sp := r2.takeWhile (·.isWhitespace)
      if sp.isEmpty then none
      else some (ws, ds ++ '.' :: sp, r2.drop sp.length)
    | _ => none

/-- Blank line, lone divider, or bare URL: preserved verbatim after a flush. -/
def isSkipLine (stripped : String) : Bool :=
  stripped == "" || stripped == "---" ||
    pyStartsWith "http://" stripped || pyStartsWith "https://" stripped

/-- The fixed chunk-size threshold (`max_chars = 1800`). -/
def maxChars : Nat := 1800

/-- Heading, list-item, ordered-item and default handling for a line that is
not a fence marker, not inside a fence, and not a skip line.  Mirrors the
Python control flow: the heading guard (`stripped.startswith("#") and
" " in line`) flushes the buffer even when the inner all-hashes test fails,
after which the line falls through to the remaining checks; the `- ` branch
and the ordered-list branch each call `flush_text_buffer` themselves before
emitting the translated item (a no-op when the heading guard already
flushed). -/
def translateStepBody (tr : String → String) (s : PState) (line : String) : PState :=
  let stripped := pyStrip line
  let hGuard := pyStartsWith "#" stripped && line.data.contains ' '
  let s1 := if hGuard then flushTextBuffer tr s else s
  let pr := splitFirstSpace line.data
  if hGuard && ((pr.1.dropWhile (· == '#')).isEmpty) then
    let rest := String.mk (pr.2.getD [])
    { s1 with
      out := s1.out ++ [String.mk pr.1 ++ " " ++ tr rest]
      calls := s1.calls ++ [rest] }
  else if pyStartsWith "- " stripped then
    let s2 := flushTextBuffer tr s1
    let idx := (firstOccur ['-', ' '] line.data).getD 0
    let rest := String.mk (line.data.drop (idx + 2))
    { s2 with
      out := s2.out ++ [String.mk (line.data.take (idx + 2)) ++ tr rest]
      calls := s2.calls ++ [rest] }
  else
    match matchOrdered line.data with
    | some (ws, pfx, rest) =>
      let s2 := flushTextBuffer tr s1
      let restS := String.mk rest
      { s2 with
        out := s2.out ++ [String.mk ws ++ String.mk pfx ++ tr restS]
        calls := s2.calls ++ [restS] }
    | none =>
      let tentative := String.intercalate "\n" (s1.buf ++ [line])
      let s2 := if tentative.length > maxChars then flushTextBuffer tr s1 else s1
      { s2 with buf := s2.buf ++ [line] }

/-- One iteration of the `for line in lines` loop. -/
def translateStep (tr : String → String) (s : PState) (line : String) : PState :=
  let stripped := pyStrip line
  if pyStartsWith "```" stripped then
    let s1 := flushTextBuffer tr s
    { s1 with inCode := !s1.inCode, out := s1.out ++ [line] }
  else if s.inCode then
    { s with out := s.out ++ [line] }
  else if isSkipLine stripped then
    let s1 := flushTextBuffer tr s
    { s1 with out := s1.out ++ [line] }
  else
    translateStepBody tr s line

/-- The whole loop over the lines, followed by the final flush. -/
def runPipeline (tr : String → String) (lines : List String) : PState :=
  flushTextBuffer tr (lines.foldl (translateStep tr) PState.init)

/-- `out = "\n".join(out_lines).rstrip() + "\n"`. -/
def renderOut (s : PState) : String :=
  pyRstrip (String.intercalate "\n" s.out) ++ "\n"

/-- Pipeline applied to a list of (already split) lines. -/
def translateLines (tr : String → String) (lines : List String) : String :=
  renderOut (runPipeline tr lines)

/-- The whole translation of a source document: newline normalisation,
splitting on `"\n"`, the line loop, and the final join. -/
def translateDoc (tr : String → String) (src : String) : String :=
  translateLines tr (pySplitNL (normalizeNewlines src))

/-! ### Markdown renderer (fetch_tweet.py, `_render_article_blocks_md`) -/

/-- `_md_escape`: normalise CRLF and CR line endings to LF. -/
def mdEscape (s : String) : String :=
  String.mk (replaceCR (replaceCRLF s.data))

/-- One article block: a type tag and a text payload.  A missing or
unrecognised `type` is any string outside the recognised set. -/
structure ABlock where
  btype : String
  text : String
  deriving Repr, DecidableEq

/-- The loop body of `_render_article_blocks_md` for one block: blocks whose
escaped, stripped text is empty are skipped (`continue`) unless atomic;
otherwise one rendered string is appended according to the type tag. -/
def renderBlockSrc (b : ABlock) : List String :=
  let text := mdEscape (pyStrip b.text)
  if text == "" && b.btype != "atomic" then []
  else
    [if b.btype == "header-one" then "# " ++ text
     else if b.btype == "header-two" then "## " ++ text
     else if b.btype == "header-three" then "### " ++ text
     else if b.btype == "unordered-list-item" then "- " ++ text
     else if b.btype == "ordered-list-item" then "1. " ++ text
     else if b.btype == "atomic" then "---"
     else text]

/-- The `out` list accumulated by the loop of `_render_article_blocks_md`. -/
def articleRenderList (blocks : List ABlock) : List String :=
  blocks.foldl (fun out b => out ++ renderBlockSrc b) []

/-- `_render_article_blocks_md` on a block list:
`"\n\n".join([s for s in out if s])`. -/
def renderArticleBlocksMd (blocks : List ABlock) : String :=
  String.intercalate "\n\n" ((articleRenderList blocks).filter (fun s => s != ""))

/-- Rendering of a single block following the amended specification text:
atomic blocks always yield the `---` divider; any other block with blank
trimmed text is dropped; headers and list items get their markers; any other
type yields its trimmed text with CRLF/CR line endings normalised to LF. -/
def renderBlockSpec (b : ABlock) : Option String :=
  let t := mdEscape (pyStrip b.text)
  if b.btype == "atomic" then some "---"
  else if t == "" then none
  else if b.btype == "header-one" then some ("# " ++ t)
  else if b.btype == "header-two" then some ("## " ++ t)
  else if b.btype == "header-three" then some ("### " ++ t)
  else if b.btype == "unordered-list-item" then some ("- " ++ t)
  else if b.btype == "ordered-list-item" then some ("1. " ++ t)
  else some t

/-- The renderer as the amended specification describes it: render each block,
drop the dropped ones, and join the surviving pieces with a blank line,
excluding empty strings from the join. -/
def renderSpec (blocks : List ABlock) : String :=
  String.intercalate "\n\n" ((blocks.filterMap renderBlockSpec).filter (fun s => s != ""))

/-- The fence-marker lines and the lines strictly inside code fences, in
order, as determined by the toggling scan of the source document. -/
def fenceVerbatim : List String → Bool → List String
  | [], _ => []
  | l :: ls, inCode =>
    if pyStartsWith "```" (pyStrip l) then l :: fenceVerbatim ls (!inCode)
    else if inCode then l :: fenceVerbatim ls inCode
    else fenceVerbatim ls inCode

/-! ### Parsed JSON values (fetch_tweet.py, `main`)

A small model of the values `json.loads` can produce, with Python truthiness
and `dict.get` semantics.  `Json.get` returns `none` to model the
`AttributeError` raised when `.get` is called on a non-dict (the quote-follow
block swallows it via `except Exception: pass`); a missing key and an explicit
JSON `null` both yield `Json.null`, matching Python `None`. -/

inductive Json where
  | null
  | bool (b : Bool)
  | num (n : Int)
  | str (s : String)
  | arr (elems : List Json)
  | obj (fields : List (String × Json))

def Json.truthy : Json → Bool
  | .null => false
  | .bool b => b
  | .num n => n != 0
  | .str s => s != ""
  | .arr xs => !xs.isEmpty
  | .obj fs => !fs.isEmpty

def Json.isNull : Json → Bool
  | .null => true
  | _ => false

/-- Python `a or b`. -/
def pyOr (a b : Json) : Json := if a.truthy then a else b

def Json.get : Json → String → Option Json
  | .obj fs, k => some ((fs.lookup k).getD .null)
  | _, _ => none

/-- The quote-follow block of `main`: `tweet0 = obj.get("tweet") or {}`,
`quote0 = tweet0.get("quote") or {}`, and the substitution
`obj = {"tweet": quote0}` performed when `quote0` is truthy and carries a
non-`None` `article` either directly or under its embedded `tweet`.  Returns
the resulting object, whether the substitution happened, and whether the
`NOTE: followed_quote=` diagnostic was printed (it requires a truthy `id` or
`url` on the quote).  Any modelled `AttributeError` leaves `obj` unchanged. -/
def followQuote (obj : Json) : Json × Bool × Bool :=
  match obj.get "tweet" with
  | none => (obj, false, false)
  | some tv =>
    let tweet0 := pyOr tv (Json.obj [])
    match tweet0.get "quote" with
    | none => (obj, false, false)
    | some qv =>
      let quote0 := pyOr qv (Json.obj [])
      if !quote0.truthy then (obj, false, false)
      else
        let doSub : Json × Bool × Bool :=
          let qid := pyOr ((quote0.get "id").getD .null) (Json.str "")
          let qu := pyOr ((quote0.get "url").getD .null) (Json.str "")
          (Json.obj [("tweet", quote0)], true, qid.truthy || qu.truthy)
        match quote0.get "article" with
        | none => (obj, false, false)
        | some av =>
          if !av.isNull then doSub
          else
            match quote0.get "tweet" with
            | none => (obj, false, false)
            | some tv2 =>
              match (pyOr tv2 (Json.obj [])).get "article" with
              | none => (obj, false, false)
              | some av2 => if !av2.isNull then doSub else (obj, false, false)

/-- Whether the outer post itself carries non-null Article data. -/
def outerHasArticle (obj : Json) : Bool :=
  match obj.get "tweet" with
  | none => false
  | some tv =>
    match (pyOr tv (Json.obj [])).get "article" with
    | none => false
    | some av => !av.isNull

/-- The `quote0` value the quote-follow block computes:
`(obj.get("tweet") or {}).get("quote") or {}` (best-effort; on the exception
paths no substitution happens and this value is irrelevant). -/
def quote0Of (obj : Json) : Json :=
  let tweet0 := pyOr ((obj.get "tweet").getD Json.null) (Json.obj [])
  pyOr ((tweet0.get "quote").getD Json.null) (Json.obj [])

/-- The amended claim's substitution condition, independent of `followQuote`:
the quote value is truthy and carries non-null Article data, directly or
under its embedded truthy `tweet` value; any access that would raise an
`AttributeError` in Python counts as no substitution. -/
def substCond (obj : Json) : Bool :=
  match obj.get "tweet" with
  | none => false
  | some tv =>
    match (pyOr tv (Json.obj [])).get "quote" with
    | none => false
    | some qv =>
      let quote0 := pyOr qv (Json.obj [])
      quote0.truthy &&
        (match quote0.get "article" with
         | none => false
         | some av =>
           if !av.isNull then true
           else
             match quote0.get "tweet" with
             | none => false
             | some tv2 =>
               match (pyOr tv2 (Json.obj [])).get "article" with
               | none => false
               | some av2 => !av2.isNull)

/-- The amended claim's diagnostic condition: the quoted post has a truthy
`id` or a truthy `url`. -/
def noteCond (obj : Json) : Bool :=
  let q := quote0Of obj
  (pyOr ((q.get "id").getD Json.null) (Json.str "")).truthy ||
    (pyOr ((q.get "url").getD Json.null) (Json.str "")).truthy

/-! ### Best-effort text selection (fetch_tweet.py, `main`) -/

/-- `tweet_text = (tweet.get("text") or "").strip()`,
`raw_text = ((tweet.get("raw_text") or {}).get("text") or "").strip()`,
`best_text = tweet_text or raw_text`.  `none` models the `AttributeError` or
`str.strip` failure on a non-dict / non-string value (uncaught in the
source). -/
def bestText (tweet : Json) : Option String :=
  match tweet.get "text" with
  | none => none
  | some tv =>
    match pyOr tv (Json.str "") with
    | .str ts =>
      let tt := pyStrip ts
      match (pyOr ((tweet.get "raw_text").getD .null) (Json.obj [])).get "text" with
      | none => none
      | some rv =>
        match pyOr rv (Json.str "") with
        | .str rs => some (if tt != "" then tt else pyStrip rs)
        | _ => none
    | _ => none

/-! ### Fetch Client error branch (twitter-viewer fetch_tweet.py, `_fetch`) -/

/-- The error message built for a non-2xx response:
`f"HTTP {exc.code}: {detail}".strip()`, with `detail` the best-effort decoded
response body. -/
def httpDetail (status : Nat) (body : String) : String :=
  pyStrip ("HTTP " ++ toString status ++ ": " ++ body)

/-- `_fetch` reduced to its HTTP outcome: `urlopen` succeeds on a 2xx status
and raises `HTTPError` otherwise, which `_fetch` converts into an error
carrying `httpDetail`. -/
def tvFetch (status : Nat) (body : String) : Except String String :=
  if 200 ≤ status ∧ status < 300 then .ok body
  else .error (httpDetail status body)

/-- `urllib.error.HTTPError` as raised by `request.urlopen`: it carries the
status code, the HTTP reason phrase, and the (readable) response body. -/
structure HttpError where
  code : Nat
  reason : String
  body : String
  deriving Repr, DecidableEq

/-- `str(e)` for an `HTTPError`: the standard library formats it as
`HTTP Error {code}: {reason}` — the response body is not part of it. -/
def httpErrorStr (e : HttpError) : String :=
  "HTTP Error " ++ toString e.code ++ ": " ++ e.reason

/-- The x-twitter-fetch `fetch` reduced to its HTTP outcome: `request.urlopen`
returns the body on 2xx and raises `HTTPError` otherwise; `fetch` installs no
handler, so the exception propagates to `main`. -/
def fxFetch (status : Nat) (reason body : String) : Except HttpError String :=
  if 200 ≤ status ∧ status < 300 then .ok body
  else .error ⟨status, reason, body⟩

/-- The diagnostic `main` prints for a failed fetch:
`f"ERROR: request failed: {e}"`. -/
def fxMainErrorMsg (e : HttpError) : String :=
  "ERROR: request failed: " ++ httpErrorStr e

/-! ### Identifier Extractor (twitter-viewer fetch_tweet.py, `_extract_tweet_id`)

The three URL patterns `tweetId=([0-9]{5,})` (case-insensitive),
`/status/([0-9]{5,})` and `/statuses/([0-9]{5,})` are literal prefixes
followed by a greedy digit run of length at least five; `re.search` finds the
leftmost position where the whole pattern matches.  The final fallback
`re.findall(r"\b\d{15,19}\b", text)` is modelled by a position-by-position
scan: at a position opening a word boundary, the greedy quantifier tries 19
down to 15 digits, each followed by a word boundary. -/

lemma renderBlockSrc_eq (b : ABlock) :
    renderBlockSrc b = (renderBlockSpec b).toList := by
  by_cases hA : b.btype = "atomic"
  · simp [renderBlockSrc, renderBlockSpec, hA]
  · have hA' : (b.btype == "atomic") = false := by simp [hA]
    by_cases hT : mdEscape (pyStrip b.text) == ""
    · simp [renderBlockSrc, renderBlockSpec, hA', hT, hA]
    · simp only [renderBlockSrc, renderBlockSpec, hA', hT, Bool.false_and,
        Bool.and_false, bne, Bool.not_false, Bool.and_true, if_false,
        Bool.false_eq_true, ite_false]
      split_ifs <;> rfl

lemma articleRenderList_aux (blocks : List ABlock) : ∀ acc : List String,
    blocks.foldl (fun out b => out ++ renderBlockSrc b) acc =
      acc ++ blocks.filterMap renderBlockSpec := by
  induction blocks with
  | nil => intro acc; simp
  | cons b bs ih =>
    intro acc
    rw [List.foldl_cons, ih, List.filterMap_cons, renderBlockSrc_eq]
    cases renderBlockSpec b <;> simp

lemma articleRenderList_eq (blocks : List ABlock) :
    articleRenderList blocks = blocks.filterMap renderBlockSpec := by
  simpa [articleRenderList] using articleRenderList_aux blocks []
/-- C1 counterexample: a plain block whose text contains a carriage return is
not rendered verbatim — the renderer normalises the CR to LF, so the output
differs from the block's raw trimmed text. -/
theorem renderer_cr_not_verbatim :
    renderArticleBlocksMd [⟨"paragraph", "a\rb"⟩] = "a\nb" ∧
      pyStrip "a\rb" = "a\rb" ∧ "a\nb" ≠ "a\rb" := by
  refine ⟨by decide, by decide, by decide⟩

/-- C1 (amended): the renderer maps header-one/two/three to `#`/`##`/`###`
prefixes, unordered items to `- `, ordered items to the literal `1. `, atomic
blocks to a `---` divider regardless of payload, and any other type to its
trimmed text with CR/CRLF normalised to LF; blocks with blank trimmed text and
non-atomic type are dropped; survivors are joined with a blank line (empty
strings excluded).  In particular the four-block example renders exactly as
stated, and the empty block list renders as the empty string. -/
theorem renderer_matches_spec :
    (∀ blocks : List ABlock, renderArticleBlocksMd blocks = renderSpec blocks) ∧
      renderArticleBlocksMd
          [⟨"header-one", "Intro"⟩, ⟨"unordered-list-item", "first"⟩,
           ⟨"atomic", ""⟩, ⟨"unordered-list-item", "second"⟩] =
        "# Intro\n\n- first\n\n---\n\n- second" ∧
      renderArticleBlocksMd [] = "" := by
  refine ⟨fun blocks => ?_, by decide, rfl⟩
  rw [renderArticleBlocksMd, renderSpec, articleRenderList_eq]

/-! ### Basic pipeline lemmas -/

lemma flush_of_buf_nil (tr : String → String) (s : PState) (h : s.buf = []) :
    flushTextBuffer tr s = s := by
  unfold flushTextBuffer
  rw [h]

lemma flush_buf (tr : String → String) (s : PState) :
    (flushTextBuffer tr s).buf = [] := by
  unfold flushTextBuffer
  cases h : s.buf with
  | nil => simp [h]
  | cons a l => dsimp only; split_ifs <;> rfl

lemma flush_inCode (tr : String → String) (s : PState) :
    (flushTextBuffer tr s).inCode = s.inCode := by
  unfold flushTextBuffer
  cases s.buf with
  | nil => rfl
  | cons a l => dsimp only; split_ifs <;> rfl

lemma flush_out (tr : String → String) (s : PState) :
    ∃ t, (flushTextBuffer tr s).out = s.out ++ t := by
  unfold flushTextBuffer
  cases s.buf with
  | nil => exact ⟨[], by simp⟩
  | cons a l =>
    dsimp only
    split_ifs
    · exact ⟨[], by simp⟩
    · exact ⟨_, rfl⟩

lemma translateStep_fence (tr : String → String) (s : PState) (line : String)
    (h : pyStartsWith "```" (pyStrip line) = true) :
    translateStep tr s line =
      { flushTextBuffer tr s with
        inCode := !(flushTextBuffer tr s).inCode
        out := (flushTextBuffer tr s).out ++ [line] } := by
  simp [translateStep, h]

lemma translateStep_inCode (tr : String → String) (s : PState) (line : String)
    (hf : pyStartsWith "```" (pyStrip line) = false) (hc : s.inCode = true) :
    translateStep tr s line = { s with out := s.out ++ [line] } := by
  simp [translateStep, hf, hc]

lemma translateStep_skip (tr : String → String) (s : PState) (line : String)
    (hf : pyStartsWith "```" (pyStrip line) = false) (hc : s.inCode = false)
    (hs : isSkipLine (pyStrip line) = true) :
    translateStep tr s line =
      { flushTextBuffer tr s with out := (flushTextBuffer tr s).out ++ [line] } := by
  simp [translateStep, hf, hc, hs]

lemma translateStep_body (tr : String → String) (s : PState) (line : String)
    (hf : pyStartsWith "```" (pyStrip line) = false) (hc : s.inCode = false)
    (hs : isSkipLine (pyStrip line) = false) :
    translateStep tr s line = translateStepBody tr s line := by
  simp [translateStep, hf, hc, hs]

/-! ### Facts about lines whose stripped form starts with a hash -/

lemma startsWith_hash_shape (s : String) (h : pyStartsWith "#" s = true) :
    ∃ t, s.data = '#' :: t := by
  unfold pyStartsWith at h
  have hd : "#".data = ['#'] := rfl
  rw [hd] at h
  cases he : s.data with
  | nil => rw [he] at h; exact absurd h (by decide)
  | cons a as =>
    rw [he] at h
    simp only [List.isPrefixOf, Bool.and_eq_true, beq_iff_eq] at h
    exact ⟨as, by rw [h.1]⟩

lemma rstripList_isPrefix (l : List Char) : rstripList l <+: l := by
  refine ⟨(l.reverse.takeWhile Char.isWhitespace).reverse, ?_⟩
  rw [rstripList, ← List.reverse_append, List.takeWhile_append_dropWhile,
    List.reverse_reverse]

lemma dropWhile_of_isPrefix {p : Char → Bool} {l₁ l₂ : List Char} {c : Char}
    {cs : List Char} (hp : l₁ <+: l₂) (h : l₁.dropWhile p = c :: cs) :
    ∃ cs2, l₂.dropWhile p = c :: cs2 := by
  obtain ⟨t, rfl⟩ := hp
  rw [List.dropWhile_append, h]
  simp

lemma stripped_hash_line (line : String)
    (hstr : pyStartsWith "#" (pyStrip line) = true) :
    pyStartsWith "```" (pyStrip line) = false ∧
      isSkipLine (pyStrip line) = false ∧
      pyStartsWith "- " (pyStrip line) = false ∧
      matchOrdered line.data = none := by
  obtain ⟨t, ht⟩ := startsWith_hash_shape _ hstr
  have hrw : pyStrip line = String.mk ('#' :: t) := by
    rw [← ht]
  have hdw : ∃ cs2, line.data.dropWhile Char.isWhitespace = '#' :: cs2 := by
    have hsl : stripList line.data = '#' :: t := ht
    exact dropWhile_of_isPrefix (rstripList_isPrefix line.data) hsl
  obtain ⟨cs2, hdw⟩ := hdw
  refine ⟨by rw [hrw]; rfl, by rw [hrw]; rfl, by rw [hrw]; rfl, ?_⟩
  unfold matchOrdered
  rw [hdw]
  simp [List.takeWhile_cons]

/-! ### Paragraph-buffer claims -/

/-- C4: a paragraph line (one that none of the fence / in-code / skip /
heading-guard / list / ordered-list branches claims) is appended to the
buffer; but first, when appending it would push the newline-joined buffer
length over 1800 characters, the buffer accumulated so far — not including
the new line — is flushed, and the new line begins the fresh buffer. -/
theorem paragraph_buffer_threshold (tr : String → String) (s : PState)
    (line : String) (hc : s.inCode = false)
    (hf : pyStartsWith "```" (pyStrip line) = false)
    (hs : isSkipLine (pyStrip line) = false)
    (hh : (pyStartsWith "#" (pyStrip line) && line.data.contains ' ') = false)
    (hd : pyStartsWith "- " (pyStrip line) = false)
    (ho : matchOrdered line.data = none) :
    translateStep tr s line =
      if (String.intercalate "\n" (s.buf ++ [line])).length > maxChars then
        { flushTextBuffer tr s with buf := [line] }
      else { s with buf := s.buf ++ [line] } := by
  rw [translateStep_body tr s line hf hc hs]
  simp only [translateStepBody, hh, Bool.false_and, Bool.false_eq_true,
    if_false, ite_false, hd, ho]
  split_ifs with hlen
  · have hb := flush_buf tr s
    simp [hb]
  · rfl

/-- Witness for C4: a 1800-character buffer plus a one-character line crosses
the threshold (1802 > 1800), so the old buffer is flushed alone and `"x"`
starts the next chunk. -/
theorem paragraph_buffer_threshold_witness :
    (String.intercalate "\n"
        ([String.mk (List.replicate 1800 'a')] ++ ["x"])).length > maxChars ∧
      translateStep (fun _ => "T")
          ⟨[], [String.mk (List.replicate 1800 'a')], [], false⟩ "x" =
        { flushTextBuffer (fun _ => "T")
            ⟨[], [String.mk (List.replicate 1800 'a')], [], false⟩ with
          buf := ["x"] } := by
  have h1 : String.intercalate "\n" ([String.mk (List.replicate 1800 'a')] ++ ["x"]) =
      String.mk (List.replicate 1800 'a') ++ "\n" ++ "x" := rfl
  have hlen : (String.intercalate "\n"
      ([String.mk (List.replicate 1800 'a')] ++ ["x"])).length = 1802 := by
    rw [h1]
    show (((List.replicate 1800 'a' : List Char) ++ "\n".data) ++ "x".data).length = 1802
    rw [List.length_append, List.length_append, List.length_replicate]
    rfl
  have hgt : (String.intercalate "\n"
      ([String.mk (List.replicate 1800 'a')] ++ ["x"])).length > maxChars := by
    rw [hlen]; decide
  refine ⟨hgt, ?_⟩
  rw [paragraph_buffer_threshold (fun _ => "T")
    ⟨[], [String.mk (List.replicate 1800 'a')], [], false⟩ "x" rfl (by decide)
    (by decide) (by decide) (by decide) (by decide)]
  rw [if_pos hgt]

/-- C9: a line outside a code fence whose stripped form starts with `#` and
which contains a space, but whose first space-delimited token is not made
solely of `#` characters, flushes the pending paragraph buffer and then starts
a fresh buffer holding just that line. -/
theorem hashtag_line_splits_paragraph (tr : String → String) (s : PState)
    (line : String) (hc : s.inCode = false)
    (hstr : pyStartsWith "#" (pyStrip line) = true)
    (hsp : line.data.contains ' ' = true)
    (hnh : ((splitFirstSpace line.data).1.dropWhile (· == '#')).isEmpty = false) :
    translateStep tr s line = { flushTextBuffer tr s with buf := [line] } := by
  obtain ⟨hf, hs, hd, ho⟩ := stripped_hash_line line hstr
  rw [translateStep_body tr s line hf hc hs]
  simp only [translateStepBody, hstr, hsp, hnh, Bool.and_true, Bool.true_and,
    Bool.and_false, Bool.false_eq_true, if_false, if_true, ite_false, ite_true,
    hd, ho]
  have hb := flush_buf tr s
  have hfl : flushTextBuffer tr (flushTextBuffer tr s) = flushTextBuffer tr s :=
    flush_of_buf_nil tr _ hb
  split_ifs with hlen <;> simp [hfl, hb]

/-- Witness for C9: the line `"#hashtag more text"` flushes the pending
paragraph (`"prev"` is translated on its own) and begins the next buffer. -/
theorem hashtag_line_splits_paragraph_witness :
    translateStep (fun _ => "X") ⟨[], ["prev"], [], false⟩ "#hashtag more text" =
      ⟨["X"], ["#hashtag more text"], ["prev"], false⟩ := by
  rw [hashtag_line_splits_paragraph (fun _ => "X") ⟨[], ["prev"], [], false⟩
    "#hashtag more text" rfl (by decide) (by decide) (by decide)]
  decide

/-! ### Heading lines -/

lemma rstripList_cons_of_not_ws (a : Char) (l : List Char)
    (h : a.isWhitespace = false) : rstripList (a :: l) = a :: rstripList l := by
  unfold rstripList
  rw [List.reverse_cons, List.dropWhile_append]
  split_ifs with he
  · have h1 : List.dropWhile Char.isWhitespace [a] = [a] := by
      simp [List.dropWhile, h]
    rw [h1]
    rw [List.isEmpty_iff] at he
    rw [he]
    rfl
  · rw [List.reverse_append]
    rfl

lemma contains_space_append (hs rest : List Char) :
    (hs ++ ' ' :: rest).contains ' ' = true := by
  induction hs with
  | nil => rfl
  | cons c cs ih =>
    show List.elem ' ' (c :: (cs ++ ' ' :: rest)) = true
    by_cases hc : (' ' == c) = true <;> simp [List.elem, hc, ih]

lemma splitFirstSpace_append (hs rest : List Char) (h : ∀ c ∈ hs, c ≠ ' ') :
    splitFirstSpace (hs ++ ' ' :: rest) = (hs, some rest) := by
  induction hs with
  | nil =>
    show splitFirstSpace (' ' :: rest) = ([], some rest)
    rfl
  | cons c cs ih =>
    have hc : (c == ' ') = false := by
      simp only [beq_eq_false_iff_ne, ne_eq]
      exact h c (List.mem_cons_self c cs)
    have ih2 := ih fun x hx => h x (List.mem_cons_of_mem c hx)
    show splitFirstSpace (c :: (cs ++ ' ' :: rest)) = (c :: cs, some rest)
    simp [splitFirstSpace, hc, ih2]

lemma dropWhile_hash_of_all (hs : List Char) (h : ∀ c ∈ hs, c = '#') :
    hs.dropWhile (· == '#') = [] := by
  induction hs with
  | nil => rfl
  | cons c cs ih =>
    have hc : (c == '#') = true := by
      simp only [beq_iff_eq]
      exact h c (List.mem_cons_self c cs)
    simp only [List.dropWhile_cons, hc, if_true]
    exact ih fun x hx => h x (List.mem_cons_of_mem c hx)

/-- C3 counterexample: the indented line `" # Title"` satisfies the claim's
condition (its trimmed content starts with `#` followed by a space), yet the
chunk handed to the translator is `"# Title"` — the `#` marker itself is sent,
not only the text after it. -/
theorem heading_marker_sent_to_translator :
    pyStartsWith "# " (pyStrip " # Title") = true ∧
      (translateStep (fun x => x) PState.init " # Title").calls = ["# Title"] ∧
      "# Title" ≠ "Title" := by
  refine ⟨by decide, by decide, by decide⟩

/-- C3 (amended): for a line outside a code fence that starts — with no
leading indentation — with a nonempty run of `#` characters followed by a
space, the pipeline flushes the paragraph buffer, passes only the text after
that first space to the translator, and emits the original `#` run, a space,
and the translated text. -/
theorem heading_line_translated (tr : String → String) (s : PState)
    (line : String) (hs rest : List Char) (hc : s.inCode = false)
    (hne : hs ≠ []) (hall : ∀ c ∈ hs, c = '#')
    (hline : line.data = hs ++ ' ' :: rest) :
    translateStep tr s line =
      { flushTextBuffer tr s with
        out := (flushTextBuffer tr s).out ++
          [String.mk hs ++ " " ++ tr (String.mk rest)]
        calls := (flushTextBuffer tr s).calls ++ [String.mk rest] } := by
  obtain ⟨c, cs, rfl⟩ : ∃ c cs, hs = c :: cs := by
    cases hs with
    | nil => exact absurd rfl hne
    | cons c cs => exact ⟨c, cs, rfl⟩
  have hchash : c = '#' := hall c (List.mem_cons_self c cs)
  subst hchash
  have hline2 : line.data = '#' :: (cs ++ ' ' :: rest) := by
    rw [hline]; rfl
  have h1 : rstripList line.data = '#' :: rstripList (cs ++ ' ' :: rest) := by
    rw [hline2]
    exact rstripList_cons_of_not_ws '#' _ (by decide)
  have h2 : stripList line.data = '#' :: rstripList (cs ++ ' ' :: rest) := by
    unfold stripList
    rw [h1, List.dropWhile_cons_of_neg]
    decide
  have hstr : pyStartsWith "#" (pyStrip line) = true := by
    show ("#".data.isPrefixOf (stripList line.data)) = true
    rw [h2, show "#".data = ['#'] from rfl]
    simp [List.isPrefixOf]
  have hsp : line.data.contains ' ' = true := by
    rw [hline]
    exact contains_space_append _ _
  have hpr : splitFirstSpace line.data = ('#' :: cs, some rest) := by
    rw [hline]
    exact splitFirstSpace_append _ _ fun x hx => by
      rw [hall x hx]; decide
  have hdh : (('#' :: cs).dropWhile (· == '#')).isEmpty = true := by
    rw [dropWhile_hash_of_all _ hall]
    rfl
  obtain ⟨hf, hsk, _, _⟩ := stripped_hash_line line hstr
  rw [translateStep_body tr s line hf hc hsk]
  simp only [translateStepBody, hstr, hsp, hpr, hdh, Bool.and_true,
    Bool.true_and, if_true, ite_true, Option.getD_some]

/-- Witness for the amended C3: the unindented heading `"## Title"` flushes
(the empty buffer), sends exactly `"Title"` to the translator, and re-attaches
the `##` marker. -/
theorem heading_line_translated_witness :
    translateStep (fun _ => "T") PState.init "## Title" =
      ⟨["## T"], [], ["Title"], false⟩ := by
  rw [heading_line_translated (fun _ => "T") PState.init "## Title" ['#', '#']
    "Title".data rfl (by decide) (by decide) (by decide)]
  decide

/-! ### Documents made only of blank and bare-URL lines -/

lemma pyStartsWith_head {p s : String} {c : Char} {pt : List Char}
    (hp : p.data = c :: pt) (h : pyStartsWith p s = true) :
    ∃ t, s.data = c :: t := by
  unfold pyStartsWith at h
  rw [hp] at h
  cases he : s.data with
  | nil => rw [he] at h; simp [List.isPrefixOf] at h
  | cons a as =>
    rw [he] at h
    simp only [List.isPrefixOf, Bool.and_eq_true, beq_iff_eq] at h
    exact ⟨as, by rw [h.1]⟩

/-- C5 counterexample: the document `"\n\n"` — every line blank — is rewritten
to `"\n"` by the final `rstrip()`-and-append-newline step, so the output is
not identical to the input. -/
theorem url_blank_doc_not_identical :
    translateDoc (fun x => x) "\n\n" = "\n" ∧ "\n" ≠ "\n\n" := by
  refine ⟨by decide, by decide⟩

lemma skip_line_facts (l : String)
    (h : pyStrip l = "" ∨ pyStartsWith "http://" (pyStrip l) = true ∨
      pyStartsWith "https://" (pyStrip l) = true) :
    pyStartsWith "```" (pyStrip l) = false ∧ isSkipLine (pyStrip l) = true := by
  rcases h with h | h | h
  · rw [h]
    exact ⟨by decide, by decide⟩
  · obtain ⟨t, ht⟩ := pyStartsWith_head (show "http://".data = 'h' :: "ttp://".data from rfl) h
    have hrw : pyStrip l = String.mk ('h' :: t) := by rw [← ht]
    constructor
    · rw [hrw]; rfl
    · simp [isSkipLine, h]
  · obtain ⟨t, ht⟩ := pyStartsWith_head (show "https://".data = 'h' :: "ttps://".data from rfl) h
    have hrw : pyStrip l = String.mk ('h' :: t) := by rw [← ht]
    constructor
    · rw [hrw]; rfl
    · simp [isSkipLine, h]

lemma pipeline_skip_lines (tr : String → String) (lines : List String)
    (h : ∀ l ∈ lines, pyStrip l = "" ∨ pyStartsWith "http://" (pyStrip l) = true ∨
      pyStartsWith "https://" (pyStrip l) = true) :
    ∀ s : PState, s.buf = [] → s.inCode = false →
      lines.foldl (translateStep tr) s = { s with out := s.out ++ lines } := by
  induction lines with
  | nil => intro s _ _; simp
  | cons l ls ih =>
    intro s hbuf hcode
    obtain ⟨hf, hsk⟩ := skip_line_facts l (h l (List.mem_cons_self l ls))
    have hstep : translateStep tr s l = { s with out := s.out ++ [l] } := by
      rw [translateStep_skip tr s l hf hcode hsk, flush_of_buf_nil tr s hbuf]
    rw [List.foldl_cons, hstep,
      ih (fun x hx => h x (List.mem_cons_of_mem l hx))
        { s with out := s.out ++ [l] } hbuf hcode]
    simp

/-- C5 (amended): on a document whose every line is blank or a bare URL the
pipeline emits every line verbatim in order and never calls the translator;
the written document is the input lines re-joined, with trailing whitespace
stripped and a single final newline appended (not necessarily byte-identical
to the input). -/
theorem url_blank_lines_preserved (tr : String → String) (lines : List String)
    (h : ∀ l ∈ lines, pyStrip l = "" ∨ pyStartsWith "http://" (pyStrip l) = true ∨
      pyStartsWith "https://" (pyStrip l) = true) :
    (runPipeline tr lines).out = lines ∧ (runPipeline tr lines).calls = [] ∧
      translateLines tr lines = pyRstrip (String.intercalate "\n" lines) ++ "\n" := by
  have hfold := pipeline_skip_lines tr lines h PState.init rfl rfl
  have hrun : runPipeline tr lines = { PState.init with out := PState.init.out ++ lines } := by
    rw [runPipeline, hfold]
    exact flush_of_buf_nil tr _ rfl
  refine ⟨?_, ?_, ?_⟩
  · rw [hrun]; simp [PState.init]
  · rw [hrun]; rfl
  · rw [translateLines, hrun, renderOut]
    simp [PState.init]

/-- Witness for the amended C5: a three-line URL/blank/URL document passes
through untouched, with no translator calls. -/
theorem url_blank_lines_preserved_witness :
    (runPipeline (fun _ => "Z") ["https://a.example", "", "http://b"]).out =
        ["https://a.example", "", "http://b"] ∧
      (runPipeline (fun _ => "Z") ["https://a.example", "", "http://b"]).calls = [] ∧
      translateLines (fun _ => "Z") ["https://a.example", "", "http://b"] =
        pyRstrip (String.intercalate "\n" ["https://a.example", "", "http://b"]) ++ "\n" :=
  url_blank_lines_preserved (fun _ => "Z") ["https://a.example", "", "http://b"]
    (by decide)

/-! ### Code-fence content is emitted verbatim -/

lemma stepBody_out (tr : String → String) (s : PState) (line : String) :
    ∃ t, (translateStepBody tr s line).out = s.out ++ t := by
  obtain ⟨tf, htf⟩ := flush_out tr s
  obtain ⟨t2, ht2⟩ := flush_out tr (flushTextBuffer tr s)
  unfold translateStepBody
  by_cases hg : (pyStartsWith "#" (pyStrip line) && line.data.contains ' ') = true
  · simp only [hg, if_true, ite_true, Bool.true_and]
    cases hmo : matchOrdered line.data with
    | some v =>
      obtain ⟨ws, pfx, rest⟩ := v
      simp only [hmo]
      split_ifs with h1 h2
      · exact ⟨_, by rw [htf, List.append_assoc]⟩
      · exact ⟨_, by rw [ht2, htf, List.append_assoc, List.append_assoc]⟩
      · exact ⟨_, by rw [ht2, htf, List.append_assoc, List.append_assoc]⟩
    | none =>
      simp only [hmo]
      split_ifs with h1 h2 h3
      · exact ⟨_, by rw [htf, List.append_assoc]⟩
      · exact ⟨_, by rw [ht2, htf, List.append_assoc, List.append_assoc]⟩
      · exact ⟨_, by rw [ht2, htf, List.append_assoc]⟩
      · exact ⟨tf, htf⟩
  · simp only [hg, if_false, ite_false, Bool.false_and, Bool.false_eq_true]
    cases hmo : matchOrdered line.data with
    | some v =>
      obtain ⟨ws, pfx, rest⟩ := v
      simp only [hmo]
      split_ifs with h1
      · exact ⟨_, by rw [htf, List.append_assoc]⟩
      · exact ⟨_, by rw [htf, List.append_assoc]⟩
    | none =>
      simp only [hmo]
      split_ifs with h1 h2
      · exact ⟨_, by rw [htf, List.append_assoc]⟩
      · exact ⟨tf, htf⟩
      · exact ⟨[], by simp⟩

lemma stepBody_inCode (tr : String → String) (s : PState) (line : String) :
    (translateStepBody tr s line).inCode = s.inCode := by
  unfold translateStepBody
  by_cases hg : (pyStartsWith "#" (pyStrip line) && line.data.contains ' ') = true
  · simp only [hg, if_true, ite_true, Bool.true_and]
    cases hmo : matchOrdered line.data with
    | some v =>
      obtain ⟨ws, pfx, rest⟩ := v
      simp only [hmo]
      split_ifs <;> simp [flush_inCode]
    | none =>
      simp only [hmo]
      split_ifs <;> simp [flush_inCode]
  · simp only [hg, if_false, ite_false, Bool.false_and, Bool.false_eq_true]
    cases hmo : matchOrdered line.data with
    | some v =>
      obtain ⟨ws, pfx, rest⟩ := v
      simp only [hmo]
      split_ifs <;> simp [flush_inCode]
    | none =>
      simp only [hmo]
      split_ifs <;> simp [flush_inCode]

lemma bool_eq_false {b : Bool} (h : ¬ b = true) : b = false := by
  cases hb : b
  · rfl
  · exact absurd hb h

lemma step_out (tr : String → String) (s : PState) (line : String) :
    ∃ t, (translateStep tr s line).out = s.out ++ t := by
  obtain ⟨tf, htf⟩ := flush_out tr s
  by_cases hf : pyStartsWith "```" (pyStrip line) = true
  · refine ⟨tf ++ [line], ?_⟩
    rw [translateStep_fence tr s line hf]
    show (flushTextBuffer tr s).out ++ [line] = s.out ++ (tf ++ [line])
    rw [htf, List.append_assoc]
  · have hf2 := bool_eq_false hf
    by_cases hic : s.inCode = true
    · rw [translateStep_inCode tr s line hf2 hic]
      exact ⟨[line], rfl⟩
    · have hic2 : s.inCode = false := bool_eq_false hic
      by_cases hsk : isSkipLine (pyStrip line) = true
      · refine ⟨tf ++ [line], ?_⟩
        rw [translateStep_skip tr s line hf2 hic2 hsk]
        show (flushTextBuffer tr s).out ++ [line] = s.out ++ (tf ++ [line])
        rw [htf, List.append_assoc]
      · rw [translateStep_body tr s line hf2 hic2 (bool_eq_false hsk)]
        exact stepBody_out tr s line

lemma step_inCode_of_not_fence (tr : String → String) (s : PState) (line : String)
    (hf : pyStartsWith "```" (pyStrip line) = false) :
    (translateStep tr s line).inCode = s.inCode := by
  by_cases hic : s.inCode = true
  · rw [translateStep_inCode tr s line hf hic]
  · have hic2 : s.inCode = false := bool_eq_false hic
    by_cases hsk : isSkipLine (pyStrip line) = true
    · rw [translateStep_skip tr s line hf hic2 hsk]
      exact flush_inCode tr s
    · rw [translateStep_body tr s line hf hic2 (bool_eq_false hsk)]
      exact stepBody_inCode tr s line

lemma foldl_out_mono (tr : String → String) (lines : List String) :
    ∀ s : PState, ∃ t, (lines.foldl (translateStep tr) s).out = s.out ++ t := by
  induction lines with
  | nil => intro s; exact ⟨[], by simp⟩
  | cons l ls ih =>
    intro s
    obtain ⟨t1, ht1⟩ := step_out tr s l
    obtain ⟨t2, ht2⟩ := ih (translateStep tr s l)
    exact ⟨t1 ++ t2, by rw [List.foldl_cons, ht2, ht1, List.append_assoc]⟩

lemma fence_verbatim_aux (tr : String → String) : ∀ (lines : List String) (s : PState),
    List.Sublist (fenceVerbatim lines s.inCode)
      ((lines.foldl (translateStep tr) s).out.drop s.out.length) := by
  intro lines
  induction lines with
  | nil => intro s; simp [fenceVerbatim]
  | cons l ls ih =>
    intro s
    obtain ⟨u, hu⟩ := foldl_out_mono tr ls (translateStep tr s l)
    have hih := ih (translateStep tr s l)
    rw [hu, List.drop_left] at hih
    by_cases hf : pyStartsWith "```" (pyStrip l) = true
    · obtain ⟨tf, htf⟩ := flush_out tr s
      have hout : (translateStep tr s l).out = s.out ++ (tf ++ [l]) := by
        rw [translateStep_fence tr s l hf]
        show (flushTextBuffer tr s).out ++ [l] = s.out ++ (tf ++ [l])
        rw [htf, List.append_assoc]
      have hcode : (translateStep tr s l).inCode = !s.inCode := by
        rw [translateStep_fence tr s l hf]
        show (!(flushTextBuffer tr s).inCode) = !s.inCode
        rw [flush_inCode]
      have hdrop : ((l :: ls).foldl (translateStep tr) s).out.drop s.out.length =
          tf ++ ([l] ++ u) := by
        rw [List.foldl_cons, hu, hout, List.append_assoc, List.drop_left,
          List.append_assoc]
      have h2 : fenceVerbatim (l :: ls) s.inCode = l :: fenceVerbatim ls (!s.inCode) := by
        simp [fenceVerbatim, hf]
      rw [hdrop, h2]
      rw [hcode] at hih
      exact (List.Sublist.cons₂ l hih).trans (List.sublist_append_right tf ([l] ++ u))
    · have hcode := step_inCode_of_not_fence tr s l (bool_eq_false hf)
      rw [hcode] at hih
      by_cases hic : s.inCode = true
      · have hout : (translateStep tr s l).out = s.out ++ [l] := by
          rw [translateStep_inCode tr s l (bool_eq_false hf) hic]
        have hdrop : ((l :: ls).foldl (translateStep tr) s).out.drop s.out.length =
            [l] ++ u := by
          rw [List.foldl_cons, hu, hout, List.append_assoc, List.drop_left]
        have h2 : fenceVerbatim (l :: ls) s.inCode = l :: fenceVerbatim ls s.inCode := by
          simp [fenceVerbatim, hf, hic]
        rw [hdrop, h2]
        exact List.Sublist.cons₂ l hih
      · have hic2 : s.inCode = false := bool_eq_false hic
        obtain ⟨t1, ht1⟩ := step_out tr s l
        have hdrop : ((l :: ls).foldl (translateStep tr) s).out.drop s.out.length =
            t1 ++ u := by
          rw [List.foldl_cons, hu, ht1, List.append_assoc, List.drop_left]
        have h2 : fenceVerbatim (l :: ls) s.inCode = fenceVerbatim ls s.inCode := by
          simp [fenceVerbatim, hf, hic2]
        rw [hdrop, h2]
        exact hih.trans (List.sublist_append_right t1 u)

/-- C2: for every document and every translator, each fence-marker line and
each line strictly between fence markers is emitted into the output verbatim,
in order (it appears byte-identical, untranslated and unbuffered, whatever the
translator does — the statement is quantified over all translators). -/
theorem code_fence_lines_verbatim (tr : String → String) (lines : List String) :
    List.Sublist (fenceVerbatim lines false) ((runPipeline tr lines).out) := by
  have h0 := fence_verbatim_aux tr lines PState.init
  have hinit : (PState.init : PState).out = [] := rfl
  rw [hinit] at h0
  simp only [List.length_nil, List.drop_zero] at h0
  obtain ⟨tf, htf⟩ := flush_out tr (lines.foldl (translateStep tr) PState.init)
  rw [runPipeline, htf]
  exact h0.trans (List.sublist_append_left _ tf)

/-- C6 counterexample: first, a post whose outer tweet carries an article
*and* quotes a post with an article — the claim allows substitution only when
the outer post lacks Article data, yet the code substitutes anyway.  Second, a
quoted post with an article but no `id` and no `url` — the code substitutes
but prints no diagnostic, refuting "when it happens a diagnostic ... is
emitted". -/
theorem quote_substituted_despite_outer_article :
    ((followQuote (Json.obj [("tweet", Json.obj
        [("article", Json.str "A"),
         ("quote", Json.obj [("article", Json.str "B"), ("id", Json.str "42")])])])).2.1 =
      true ∧
    outerHasArticle (Json.obj [("tweet", Json.obj
        [("article", Json.str "A"),
         ("quote", Json.obj [("article", Json.str "B"), ("id", Json.str "42")])])]) =
      true) ∧
    ((followQuote (Json.obj [("tweet", Json.obj
        [("quote", Json.obj [("article", Json.str "B")])])])).2.1 = true ∧
      (followQuote (Json.obj [("tweet", Json.obj
        [("quote", Json.obj [("article", Json.str "B")])])])).2.2 = false) := by
  exact ⟨⟨rfl, rfl⟩, ⟨rfl, rfl⟩⟩

lemma truthy_pyOr_emptystr (a : Json) :
    (pyOr a (Json.str "")).truthy = a.truthy := by
  unfold pyOr
  by_cases h : a.truthy = true
  · rw [if_pos h]
  · rw [if_neg h, bool_eq_false h]
    rfl

lemma followQuote_subst_eq (obj : Json) :
    (followQuote obj).2.1 = substCond obj := by
  unfold followQuote substCond
  cases hg : obj.get "tweet" with
  | none => rfl
  | some tv =>
    simp only [hg]
    cases hq : (pyOr tv (Json.obj [])).get "quote" with
    | none => rfl
    | some qv =>
      simp only [hq]
      by_cases ht : (pyOr qv (Json.obj [])).truthy = true
      · simp only [ht, Bool.not_true, Bool.false_eq_true, if_false, Bool.true_and]
        cases ha : (pyOr qv (Json.obj [])).get "article" with
        | none => rfl
        | some av =>
          simp only [ha]
          by_cases hav : av.isNull = true
          · simp only [hav, Bool.not_true, Bool.false_eq_true, if_false]
            cases ht2 : (pyOr qv (Json.obj [])).get "tweet" with
            | none => rfl
            | some tv2 =>
              simp only [ht2]
              cases ha2 : (pyOr tv2 (Json.obj [])).get "article" with
              | none => rfl
              | some av2 =>
                simp only [ha2]
                by_cases hav2 : av2.isNull = true
                · simp [hav2]
                · simp [bool_eq_false hav2]
          · simp [bool_eq_false hav]
      · simp [bool_eq_false ht]

lemma followQuote_note_eq (obj : Json) :
    (followQuote obj).2.2 = ((followQuote obj).2.1 && noteCond obj) := by
  unfold followQuote noteCond quote0Of
  cases hg : obj.get "tweet" with
  | none => rfl
  | some tv =>
    simp only [hg, Option.getD_some]
    cases hq : (pyOr tv (Json.obj [])).get "quote" with
    | none => simp [hq]
    | some qv =>
      simp only [hq, Option.getD_some]
      by_cases ht : (pyOr qv (Json.obj [])).truthy = true
      · simp only [ht, Bool.not_true, Bool.false_eq_true, if_false]
        cases ha : (pyOr qv (Json.obj [])).get "article" with
        | none => simp [ha]
        | some av =>
          simp only [ha]
          by_cases hav : av.isNull = true
          · simp only [hav, Bool.not_true, Bool.false_eq_true, if_false]
            cases ht2 : (pyOr qv (Json.obj [])).get "tweet" with
            | none => simp [ht2]
            | some tv2 =>
              simp only [ht2]
              cases ha2 : (pyOr tv2 (Json.obj [])).get "article" with
              | none => simp [ha2]
              | some av2 =>
                simp only [ha2]
                by_cases hav2 : av2.isNull = true
                · simp [hav2]
                · simp [bool_eq_false hav2]
          · simp [bool_eq_false hav]
      · simp [bool_eq_false ht]

lemma followQuote_result_eq (obj : Json) :
    (followQuote obj).1 =
      cond (followQuote obj).2.1 (Json.obj [("tweet", quote0Of obj)]) obj := by
  unfold followQuote quote0Of
  cases hg : obj.get "tweet" with
  | none => rfl
  | some tv =>
    simp only [hg, Option.getD_some]
    cases hq : (pyOr tv (Json.obj [])).get "quote" with
    | none => simp [hq]
    | some qv =>
      simp only [hq, Option.getD_some]
      by_cases ht : (pyOr qv (Json.obj [])).truthy = true
      · simp only [ht, Bool.not_true, Bool.false_eq_true, if_false]
        cases ha : (pyOr qv (Json.obj [])).get "article" with
        | none => simp [ha]
        | some av =>
          simp only [ha]
          by_cases hav : av.isNull = true
          · simp only [hav, Bool.not_true, Bool.false_eq_true, if_false]
            cases ht2 : (pyOr qv (Json.obj [])).get "tweet" with
            | none => simp [ht2]
            | some tv2 =>
              simp only [ht2]
              cases ha2 : (pyOr tv2 (Json.obj [])).get "article" with
              | none => simp [ha2]
              | some av2 =>
                simp only [ha2]
                by_cases hav2 : av2.isNull = true
                · simp [hav2]
                · simp [bool_eq_false hav2]
          · simp [bool_eq_false hav]
      · simp [bool_eq_false ht]

/-- C6 (amended): the quoted post is substituted as the effective subject
exactly when the quote is present (truthy) and itself carries non-null
Article data, directly or via an embedded `tweet.article` — regardless of
whether the outer post carries Article data.  The substitution wraps the
quote one level (`{"tweet": quote}`), never recursing, and the diagnostic is
printed exactly when a substitution happens and the quote has a truthy `id`
or `url` (a quote without either is substituted silently).  Proved for every
parsed object via `substCond`/`noteCond`/`quote0Of`, and instantiated on
concrete families: article+id quote under an outer article, embedded
`tweet.article` quote, article+url quote, an absent quote and an empty
(falsy) quote. -/
theorem quote_substitution_one_level :
    (∀ obj : Json,
      (followQuote obj).2.1 = substCond obj ∧
        (followQuote obj).2.2 = ((followQuote obj).2.1 && noteCond obj) ∧
        (followQuote obj).1 =
          cond (followQuote obj).2.1 (Json.obj [("tweet", quote0Of obj)]) obj) ∧
    (∀ outerArticle qArt qid : Json,
      followQuote (Json.obj [("tweet", Json.obj
          [("article", outerArticle),
           ("quote", Json.obj [("article", qArt), ("id", qid)])])]) =
        (if qArt.isNull then
          (Json.obj [("tweet", Json.obj
            [("article", outerArticle),
             ("quote", Json.obj [("article", qArt), ("id", qid)])])], false, false)
         else
          (Json.obj [("tweet", Json.obj [("article", qArt), ("id", qid)])], true,
            qid.truthy))) ∧
    (∀ qArt2 : Json,
      followQuote (Json.obj [("tweet", Json.obj
          [("quote", Json.obj [("tweet", Json.obj [("article", qArt2)])])])]) =
        (if qArt2.isNull then
          (Json.obj [("tweet", Json.obj
            [("quote", Json.obj [("tweet", Json.obj [("article", qArt2)])])])],
           false, false)
         else
          (Json.obj [("tweet", Json.obj
            [("tweet", Json.obj [("article", qArt2)])])], true, false))) ∧
    (∀ qArt qu : Json,
      followQuote (Json.obj [("tweet", Json.obj
          [("quote", Json.obj [("article", qArt), ("url", qu)])])]) =
        (if qArt.isNull then
          (Json.obj [("tweet", Json.obj
            [("quote", Json.obj [("article", qArt), ("url", qu)])])], false, false)
         else
          (Json.obj [("tweet", Json.obj [("article", qArt), ("url", qu)])], true,
            qu.truthy))) ∧
    (∀ outerArticle : Json,
      followQuote (Json.obj [("tweet", Json.obj [("article", outerArticle)])]) =
        (Json.obj [("tweet", Json.obj [("article", outerArticle)])], false, false)) ∧
    (∀ outerArticle : Json,
      followQuote (Json.obj [("tweet", Json.obj
          [("article", outerArticle), ("quote", Json.obj [])])]) =
        (Json.obj [("tweet", Json.obj
          [("article", outerArticle), ("quote", Json.obj [])])], false, false)) := by
  refine ⟨fun obj => ⟨followQuote_subst_eq obj, followQuote_note_eq obj,
    followQuote_result_eq obj⟩, ?_, ?_, ?_, ?_, ?_⟩
  · intro outerArticle qArt qid
    cases qArt <;>
        simp [followQuote, Json.get, Json.isNull, List.lookup, pyOr, Json.truthy] <;>
      exact truthy_pyOr_emptystr qid
  · intro qArt2
    cases qArt2 <;>
      simp [followQuote, pyOr, Json.get, Json.truthy, Json.isNull, List.lookup]
  · intro qArt qu
    cases qArt <;>
        simp [followQuote, Json.get, Json.isNull, List.lookup, pyOr, Json.truthy] <;>
      exact truthy_pyOr_emptystr qu
  · intro outerArticle
    rfl
  · intro outerArticle
    rfl

lemma pyOr_str_emptystr (s : String) :
    pyOr (Json.str s) (Json.str "") = Json.str s := by
  unfold pyOr
  by_cases h : s = ""
  · subst h; rfl
  · simp [Json.truthy, h]

lemma pyOr_null (b : Json) : pyOr Json.null b = b := rfl

lemma pyOr_obj_cons (kv : String × Json) (fs : List (String × Json)) (b : Json) :
    pyOr (Json.obj (kv :: fs)) b = Json.obj (kv :: fs) := rfl

lemma pyStrip_empty : pyStrip "" = "" := rfl

/-- C10: with both fields present, a blank-after-trim `text` makes the best
text fall back to the trimmed `raw_text.text`; the best text is empty exactly
when both contributions are blank after trimming; a missing `raw_text` leaves
the trimmed `text`, a missing `text` leaves the trimmed `raw_text.text`, and
with neither field the best text is the empty string. -/
theorem best_text_fallback :
    (∀ s r : String, pyStrip s = "" →
      bestText (Json.obj [("text", .str s), ("raw_text", Json.obj [("text", .str r)])]) =
        some (pyStrip r)) ∧
      (∀ s r : String,
        (bestText (Json.obj [("text", .str s), ("raw_text", Json.obj [("text", .str r)])]) =
          some "") ↔ (pyStrip s = "" ∧ pyStrip r = "")) ∧
      (∀ s : String, bestText (Json.obj [("text", .str s)]) = some (pyStrip s)) ∧
      (∀ r : String, bestText (Json.obj [("raw_text", Json.obj [("text", .str r)])]) =
        some (pyStrip r)) ∧
      bestText (Json.obj []) = some "" := by
  have hbase : ∀ s r : String,
      bestText (Json.obj [("text", .str s), ("raw_text", Json.obj [("text", .str r)])]) =
        some (if pyStrip s != "" then pyStrip s else pyStrip r) := by
    intro s r
    simp [bestText, Json.get, List.lookup, pyOr_str_emptystr, pyOr_null, pyOr_obj_cons]
  have hsolo : ∀ s : String, bestText (Json.obj [("text", .str s)]) =
      some (if pyStrip s != "" then pyStrip s else pyStrip "") := by
    intro s
    simp [bestText, Json.get, List.lookup, pyOr_str_emptystr, pyOr_null, pyOr_obj_cons]
  refine ⟨?_, ?_, ?_, ?_, ?_⟩
  · intro s r hs
    rw [hbase s r, hs]
    rfl
  · intro s r
    rw [hbase s r]
    by_cases hs : pyStrip s = ""
    · rw [hs]
      simp
    · have hs2 : (pyStrip s != "") = true := by simp [bne, hs]
      rw [hs2]
      simp [hs]
  · intro s
    rw [hsolo s]
    by_cases hs : pyStrip s = ""
    · rw [hs]
      rfl
    · have hs2 : (pyStrip s != "") = true := by simp [bne, hs]
      rw [hs2]
      simp
  · intro r
    simp [bestText, Json.get, List.lookup, pyOr_str_emptystr, pyOr_null, pyOr_obj_cons,
      pyStrip_empty]
  · rfl

/-- Witness for C10: a whitespace-only `text` field falls back to the trimmed
`raw_text.text`. -/
theorem best_text_fallback_witness :
    pyStrip " " = "" ∧
      bestText (Json.obj [("text", .str " "),
          ("raw_text", Json.obj [("text", .str " hi ")])]) =
        some (pyStrip " hi ") :=
  ⟨rfl, best_text_fallback.1 " " " hi " rfl⟩

lemma rstripList_append (a b : List Char) :
    rstripList (a ++ b) =
      if rstripList b = [] then rstripList a else a ++ rstripList b := by
  unfold rstripList
  rw [List.reverse_append, List.dropWhile_append]
  by_cases hb : (b.reverse.dropWhile Char.isWhitespace).isEmpty = true
  · rw [if_pos hb]
    rw [List.isEmpty_iff] at hb
    rw [if_pos (by rw [hb]; rfl)]
  · rw [if_neg hb]
    have hb2 : ¬ (b.reverse.dropWhile Char.isWhitespace).reverse = [] := by
      rw [List.reverse_eq_nil_iff]
      intro hc
      exact hb (by rw [hc]; rfl)
    rw [if_neg hb2, List.reverse_append, List.reverse_reverse]

lemma rstripList_ne_nil_of_head (c : Char) (l : List Char)
    (h : c.isWhitespace = false) : rstripList (c :: l) ≠ [] := by
  rw [rstripList_cons_of_not_ws c l h]
  simp

lemma httpDetail_data (status : Nat) (body : String) :
    (httpDetail status body).data =
      "HTTP ".data ++ (toString status).data ++
        (": ".data ++ rstripList body.data) ∨
    ((httpDetail status body).data =
      "HTTP ".data ++ (toString status).data ++ [':'] ∧ rstripList body.data = []) := by
  have hsplit : ("HTTP " ++ toString status ++ ": " ++ body).data =
      ("HTTP ".data ++ (toString status).data) ++ (": ".data ++ body.data) := by
    simp [List.append_assoc]
  have hdetail : (httpDetail status body).data =
      stripList (("HTTP ".data ++ (toString status).data) ++ (": ".data ++ body.data)) := by
    show stripList ("HTTP " ++ toString status ++ ": " ++ body).data = _
    rw [hsplit]
  have hcolon : (": ".data ++ body.data) = ':' :: (' ' :: body.data) := rfl
  have hBne : rstripList (": ".data ++ body.data) ≠ [] := by
    rw [hcolon]
    exact rstripList_ne_nil_of_head ':' _ (by decide)
  have houter : rstripList (("HTTP ".data ++ (toString status).data) ++
      (": ".data ++ body.data)) =
      ("HTTP ".data ++ (toString status).data) ++ rstripList (": ".data ++ body.data) := by
    rw [rstripList_append, if_neg hBne]
  have hdrop : ∀ tail : List Char,
      List.dropWhile Char.isWhitespace
        (("HTTP ".data ++ (toString status).data) ++ tail) =
        ("HTTP ".data ++ (toString status).data) ++ tail := by
    intro tail
    show List.dropWhile Char.isWhitespace ('H' :: ("TTP ".data ++ (toString status).data ++ tail)) = _
    rw [List.dropWhile_cons_of_neg (by decide)]
    rfl
  have hinner := rstripList_append (": ".data) body.data
  by_cases hb : rstripList body.data = []
  · right
    refine ⟨?_, hb⟩
    rw [hdetail]
    unfold stripList
    rw [houter, hinner, if_pos hb]
    have h1 : rstripList (": ".data) = [':'] := by decide
    rw [h1, hdrop [':']]
  · left
    rw [hdetail]
    unfold stripList
    rw [houter, hinner, if_neg hb, hdrop]

lemma fxMainErrorMsg_data (e : HttpError) :
    (fxMainErrorMsg e).data =
      "ERROR: request failed: HTTP Error ".data ++ (toString e.code).data ++
        (": ".data ++ e.reason.data) := by
  have hlit : "ERROR: request failed: ".data ++ "HTTP Error ".data =
      "ERROR: request failed: HTTP Error ".data := rfl
  show ("ERROR: request failed: " ++
      ("HTTP Error " ++ toString e.code ++ ": " ++ e.reason)).data = _
  simp [← hlit, List.append_assoc]

/-- C8 counterexample: for the x-twitter-fetch client, HTTP 404 with body
`{"error":"not found"}` propagates the raw `HTTPError`, and `main` surfaces
`ERROR: request failed: HTTP Error 404: Not Found` — the status code is
present but the response body is nowhere in the surfaced detail, refuting the
claim for that cited client. -/
theorem fx_fetch_error_lacks_body :
    fxFetch 404 "Not Found" "\x7b\"error\":\"not found\"\x7d" =
        .error ⟨404, "Not Found", "\x7b\"error\":\"not found\"\x7d"⟩ ∧
      fxMainErrorMsg ⟨404, "Not Found", "\x7b\"error\":\"not found\"\x7d"⟩ =
        "ERROR: request failed: HTTP Error 404: Not Found" ∧
      ¬ List.IsInfix "\x7b\"error\":\"not found\"\x7d".data
          "ERROR: request failed: HTTP Error 404: Not Found".data := by
  refine ⟨rfl, rfl, by decide⟩

/-- C8 (amended): the twitter-viewer client converts every non-2xx response
into an error whose detail contains both the printed status code and the
best-effort decoded response body (up to the surrounding whitespace removed
by the final `strip()`); the x-twitter-fetch client propagates the raw
`HTTPError` — which carries the status code, reason and readable body — and
the message its `main` surfaces contains the status code but not the response
body. -/
theorem fetch_error_detail_by_client :
    (∀ (status : Nat) (body : String), status < 200 ∨ 300 ≤ status →
      tvFetch status body = .error (httpDetail status body) ∧
        List.IsInfix (toString status).data (httpDetail status body).data ∧
        List.IsInfix (pyStrip body).data (httpDetail status body).data) ∧
      (∀ (status : Nat) (reason body : String), status < 200 ∨ 300 ≤ status →
        fxFetch status reason body = .error ⟨status, reason, body⟩ ∧
          List.IsInfix (toString status).data
            (fxMainErrorMsg ⟨status, reason, body⟩).data) := by
  constructor
  · intro status body h
    refine ⟨?_, ?_, ?_⟩
    · unfold tvFetch
      rw [if_neg]
      omega
    · rcases httpDetail_data status body with hd | ⟨hd, _⟩
      · exact ⟨"HTTP ".data, ": ".data ++ rstripList body.data, by rw [hd]⟩
      · exact ⟨"HTTP ".data, [':'], by rw [hd]⟩
    · rcases httpDetail_data status body with hd | ⟨hd, hb⟩
      · have hsuffix : rstripList body.data =
            (rstripList body.data).takeWhile Char.isWhitespace ++ (pyStrip body).data := by
          show _ = _ ++ stripList body.data
          unfold stripList
          rw [List.takeWhile_append_dropWhile]
        refine ⟨"HTTP ".data ++ (toString status).data ++ ": ".data ++
            (rstripList body.data).takeWhile Char.isWhitespace, [], ?_⟩
        rw [hd]
        conv_rhs => rw [hsuffix]
        simp [List.append_assoc]
      · have hempty : (pyStrip body).data = [] := by
          show stripList body.data = []
          unfold stripList
          rw [hb]
          rfl
        rw [hempty]
        exact ⟨(httpDetail status body).data, [], by simp⟩
  · intro status reason body h
    refine ⟨?_, ?_⟩
    · unfold fxFetch
      rw [if_neg]
      omega
    · exact ⟨"ERROR: request failed: HTTP Error ".data,
        ": ".data ++ reason.data, by rw [fxMainErrorMsg_data]⟩

/-- Witness for C8 (amended): HTTP 404 with body `{"error":"not found"}`
exercises both clients: the twitter-viewer detail contains `404` and the body
text, and the x-twitter-fetch surfaced message contains `404`. -/
theorem fetch_error_detail_by_client_witness :
    (404 < 200 ∨ 300 ≤ 404) ∧
      (tvFetch 404 "\x7b\"error\":\"not found\"\x7d" =
          .error (httpDetail 404 "\x7b\"error\":\"not found\"\x7d") ∧
        List.IsInfix (toString 404).data
          (httpDetail 404 "\x7b\"error\":\"not found\"\x7d").data ∧
        List.IsInfix (pyStrip "\x7b\"error\":\"not found\"\x7d").data
          (httpDetail 404 "\x7b\"error\":\"not found\"\x7d").data) ∧
      (fxFetch 404 "Not Found" "\x7b\"error\":\"not found\"\x7d" =
          .error ⟨404, "Not Found", "\x7b\"error\":\"not found\"\x7d"⟩ ∧
        List.IsInfix (toString 404).data
          (fxMainErrorMsg ⟨404, "Not Found", "\x7b\"error\":\"not found\"\x7d"⟩).data) :=
  ⟨by decide,
    fetch_error_detail_by_client.1 404 "\x7b\"error\":\"not found\"\x7d" (by decide),
    fetch_error_detail_by_client.2 404 "Not Found" "\x7b\"error\":\"not found\"\x7d"
      (by decide)⟩

